import Mathlib

/-!
Shallow embedding of the notification fan-out and reminder subsystem of the
LB-Calendar backend (src/utils/notifications.js and
src/services/reminderService.js, plus the task-update notification block of
src/routes/tasks.js), with proofs of the specified properties.

User ids are modelled as `Nat`, timestamps as `Int` (milliseconds).  The
MongoDB store is modelled by a failure oracle `storeFails : Notif → Bool`
telling, for each document, whether the write of that document fails; the
list of documents actually written is threaded explicitly.
-/

/-- A notification record as built by `src/utils/notifications.js`
(`user_id`, `title`, `message`, `type`, `link`, `read`). -/
structure Notif where
  user_id : Nat
  title : String
  message : String
  type : String
  link : Option String
  read : Bool
deriving Repr, DecidableEq

/-- Build the document `createNotification` / `createNotificationsForUsers`
insert: `{ user_id, title, message, type, link, read: false }`. -/
def mkNotif (userId : Nat) (title message ty : String) (link : Option String) : Notif :=
  { user_id := userId, title := title, message := message, type := ty,
    link := link, read := false }

/-- Ordered `Model.insertMany` (mongoose default `ordered: true`): documents
are written sequentially; the first failing write aborts the rest of the
batch and raises, while documents written before it stay in the store.
Returns (what the call returns or raises, the documents actually written). -/
def insertMany (storeFails : Notif → Bool) :
    List Notif → Except String (List Notif) × List Notif
  | [] => (Except.ok [], [])
  | d :: rest =>
    if storeFails d then (Except.error "insertMany write failed", [])
    else
      match insertMany storeFails rest with
      | (Except.ok l, w) => (Except.ok (d :: l), d :: w)
      | (Except.error e, w) => (Except.error e, d :: w)

/-- Function `createNotification` from src/utils/notifications.js: builds one document,
`save()`s it; the catch block logs and RETHROWS (`throw error`), so a store
failure propagates to the caller.  Returns (result, documents written). -/
def createNotification (storeFails : Notif → Bool) (userId : Nat)
    (title message ty : String) (link : Option String) :
    Except String Notif × List Notif :=
  let n := mkNotif userId title message ty link
  if storeFails n then (Except.error "save failed", [])
  else (Except.ok n, [n])

/-- Function `createNotificationsForUsers` from src/utils/notifications.js
(the `notifyMany` of the spec): empty / missing recipient list short-circuits to
`[]` with no store access; otherwise one document per recipient is built and
the whole batch is written with a single `insertMany`; the catch block logs
and returns `[]` WITHOUT rethrowing.  Returns (result, documents written). -/
def createNotificationsForUsers (storeFails : Notif → Bool) (userIds : List Nat)
    (title message ty : String) (link : Option String) :
    Except String (List Notif) × List Notif :=
  if userIds.isEmpty then (Except.ok [], [])
  else
    let docs := userIds.map (fun uid => mkNotif uid title message ty link)
    if docs.length > 0 then
      match insertMany storeFails docs with
      | (Except.ok result, w) => (Except.ok result, w)
      | (Except.error _, w) => (Except.ok [], w)
    else (Except.ok [], [])

/-- Behaviour of ordered `insertMany`: the written documents are the longest
failure-free prefix, and the call succeeds (returning the whole batch) iff no
write of a document fails. -/
theorem insertMany_eq (storeFails : Notif → Bool) (docs : List Notif) :
    insertMany storeFails docs =
      (if docs.any storeFails then Except.error "insertMany write failed"
       else Except.ok docs,
       docs.takeWhile (fun d => !storeFails d)) := by
  induction docs with
  | nil => simp [insertMany]
  | cons d rest ih =>
    by_cases hd : storeFails d
    · simp [insertMany, hd, List.takeWhile]
    · simp only [insertMany, hd, if_neg, Bool.false_eq_true, not_false_eq_true, ih]
      by_cases hr : rest.any storeFails
      · simp [hr, hd, List.takeWhile]
      · simp [hr, hd, List.takeWhile]

/-- What `createNotificationsForUsers` returns and writes, for every store
behaviour: the caller-visible result is always `ok` (never a raise); it is
the full batch when every write succeeds and `[]` otherwise; the writes are
the longest failure-free prefix of the batch. -/
theorem createNotificationsForUsers_eq (storeFails : Notif → Bool)
    (userIds : List Nat) (title message ty : String) (link : Option String) :
    createNotificationsForUsers storeFails userIds title message ty link =
      (Except.ok
        (if (userIds.map (fun uid => mkNotif uid title message ty link)).any storeFails
         then [] else userIds.map (fun uid => mkNotif uid title message ty link)),
       (userIds.map (fun uid => mkNotif uid title message ty link)).takeWhile
         (fun d => !storeFails d)) := by
  cases userIds with
  | nil => simp [createNotificationsForUsers]
  | cons u rest =>
    simp only [createNotificationsForUsers, List.isEmpty_cons, List.map_cons,
      List.length_cons, if_false, Bool.false_eq_true, insertMany_eq]
    by_cases h : ((mkNotif u title message ty link) ::
        rest.map (fun uid => mkNotif uid title message ty link)).any storeFails
    · simp [h]
    · simp [h]

/-! ## Domain model (read-only snapshot the reminder service queries) -/

namespace LB

/-- A task as seen by the reminder service after `populate`: `project_id`
is reduced to the populated project name (`none` when there is no project). -/
structure Task where
  id : Nat
  title : String
  status : String
  due_date : Option Int
  assigned_users : List Nat
  assigned_to : Option Nat
  created_by : Option Nat
  project_name : Option String
  updatedAt : Int
deriving Repr, DecidableEq

/-- An event as seen by the reminder service after `populate`. -/
structure Event where
  id : Nat
  title : String
  start_date : Int
  is_online : Bool
  online_platform : Option String
  location : Option String
  project_name : Option String
deriving Repr, DecidableEq

/-- The domain snapshot: all tasks, all events, all user ids. -/
structure DB where
  tasks : List Task
  events : List Event
  users : List Nat
deriving Repr

/-- Environment of one reminder run: the snapshot, the wall clock `now`,
the next local midnight (JS `tomorrow.setHours(24,0,0,0)`), the store
failure oracle, and a per-check query failure oracle (whether the
`Model.find` of that check throws). -/
structure Env where
  db : DB
  now : Int
  midnight : Int
  storeFails : Notif → Bool
  queryFails : String → Bool

/-- JS `x || fallback` on an optional string: `undefined`, `null` and the
empty string are all falsy. -/
def jsOrElse (x : Option String) (fallback : String) : String :=
  match x with
  | some s => if s = "" then fallback else s
  | none => fallback

/-- Stand-in for JS `new Date(t).toLocaleDateString()`. -/
def toLocaleDateString (t : Int) : String :=
  "<date " ++ toString t ++ ">"

/-- Stand-in for JS `new Date(t).toLocaleTimeString([], {hour, minute})`. -/
def toLocaleTimeString (t : Int) : String :=
  "<time " ++ toString t ++ ">"

/-- JS optional chain on the populated project name: a truthy name yields
the suffix ` in name`, a missing or empty name yields the empty string. -/
def projectSuffix (pn : Option String) : String :=
  match pn with
  | some n => if n = "" then "" else " in " ++ n
  | none => ""

/-- The recipient list every check builds: `assigned_users`, then
`assigned_to` appended unless already included. -/
def taskRecipients (t : Task) : List Nat :=
  let ids := t.assigned_users
  match t.assigned_to with
  | some a => if ids.contains a then ids else ids ++ [a]
  | none => ids

/-! ## Short-cycle checks -/

/-- Mongo filter of `checkOverdueTasks`:
`due_date < now` and `status ∈ {pending, in_progress}`. -/
def overdueMatches (now : Int) (t : Task) : Bool :=
  (match t.due_date with | some d => decide (d < now) | none => false) &&
  (t.status == "pending" || t.status == "in_progress")

/-- Message of an overdue-task notification. -/
def overdueMessage (t : Task) : String :=
  "The task \"" ++ t.title ++ "\"" ++ projectSuffix t.project_name ++
    " was due on " ++ toLocaleDateString (t.due_date.getD 0) ++
    " and is still pending."

/-- Function `checkOverdueTasks`: one fan-out per matching task to its recipients
(skipped when the recipient list is empty), severity `warning`.  The whole
body is wrapped in try/catch, so the caller always gets `ok`. -/
def checkOverdueTasks (env : Env) : List Notif × Except String Unit :=
  if env.queryFails "overdueTasks" then ([], Except.ok ())
  else
    let matching := (env.db.tasks.filter (overdueMatches env.now))
    let w := (matching.map (fun t =>
      let ids := taskRecipients t
      if ids.length > 0 then
        (createNotificationsForUsers env.storeFails ids "Task Overdue"
          (overdueMessage t) "warning" (some ("/tasks/" ++ toString t.id))).2
      else [])).flatten
    (w, Except.ok ())

/-- Mongo filter of `checkTasksDueSoon`:
`now ≤ due_date ≤ tomorrow` and `status ∈ {pending, in_progress}`. -/
def dueSoonMatches (now midnight : Int) (t : Task) : Bool :=
  (match t.due_date with
   | some d => decide (now ≤ d) && decide (d ≤ midnight)
   | none => false) &&
  (t.status == "pending" || t.status == "in_progress")

/-- Message of a due-soon notification. -/
def dueSoonMessage (t : Task) : String :=
  "The task \"" ++ t.title ++ "\"" ++ projectSuffix t.project_name ++
    " is due on " ++ toLocaleDateString (t.due_date.getD 0) ++
    " at " ++ toLocaleTimeString (t.due_date.getD 0) ++ "."

/-- Function `checkTasksDueSoon`: same shape as `checkOverdueTasks`, severity `info`. -/
def checkTasksDueSoon (env : Env) : List Notif × Except String Unit :=
  if env.queryFails "tasksDueSoon" then ([], Except.ok ())
  else
    let matching := (env.db.tasks.filter (dueSoonMatches env.now env.midnight))
    let w := (matching.map (fun t =>
      let ids := taskRecipients t
      if ids.length > 0 then
        (createNotificationsForUsers env.storeFails ids "Task Due Soon"
          (dueSoonMessage t) "info" (some ("/tasks/" ++ toString t.id))).2
      else [])).flatten
    (w, Except.ok ())

/-- Mongo filter of `checkUpcomingEvents`: `now ≤ start_date ≤ tomorrow`
(note: `$lte`, so the next-midnight bound is INCLUDED). -/
def upcomingMatches (now midnight : Int) (e : Event) : Bool :=
  decide (now ≤ e.start_date) && decide (e.start_date ≤ midnight)

/-- The location phrase: `on {online_platform}` (falling back to the literal
`online platform`) when online, else the physical location (falling back to
the literal `location TBD`). -/
def locationText (e : Event) : String :=
  if e.is_online then "on " ++ jsOrElse e.online_platform "online platform"
  else jsOrElse e.location "location TBD"

/-- Message of an upcoming-event notification. -/
def upcomingMessage (e : Event) : String :=
  "\"" ++ e.title ++ "\"" ++ projectSuffix e.project_name ++
    " is happening on " ++ toLocaleDateString e.start_date ++
    " at " ++ toLocaleTimeString e.start_date ++ " " ++ locationText e ++ "."

/-- Function `checkUpcomingEvents`: for each matching event, one fan-out to ALL user
ids in the system (broadcast), severity `info`. -/
def checkUpcomingEvents (env : Env) : List Notif × Except String Unit :=
  if env.queryFails "upcomingEvents" then ([], Except.ok ())
  else
    let matching := (env.db.events.filter (upcomingMatches env.now env.midnight))
    let allUserIds := env.db.users
    let w := (matching.map (fun e =>
      if allUserIds.length > 0 then
        (createNotificationsForUsers env.storeFails allUserIds "Upcoming Event"
          (upcomingMessage e) "info" (some ("/events/" ++ toString e.id))).2
      else [])).flatten
    (w, Except.ok ())

/-- Mongo filter of `checkCompletedTasks`: `status = completed` and
`updatedAt ≥ now - 1h`. -/
def completedMatches (now : Int) (t : Task) : Bool :=
  t.status == "completed" && decide (now - 3600000 ≤ t.updatedAt)

/-- Message of a completed-task notification. -/
def completedMessage (t : Task) : String :=
  "The task \"" ++ t.title ++ "\"" ++ projectSuffix t.project_name ++
    " has been marked as completed."

/-- The notification loop of `checkCompletedTasks`: one `createNotification`
to the creator per task; since `createNotification` rethrows store errors,
the first failing save aborts the rest of the loop. -/
def completedLoop (storeFails : Notif → Bool) :
    List Task → List Notif × Except String Unit
  | [] => ([], Except.ok ())
  | t :: rest =>
    match t.created_by with
    | some creatorId =>
      match createNotification storeFails creatorId "Task Completed"
          (completedMessage t) "success" (some ("/tasks/" ++ toString t.id)) with
      | (Except.ok _, w1) =>
        match completedLoop storeFails rest with
        | (w2, r) => (w1 ++ w2, r)
      | (Except.error e, w1) => (w1, Except.error e)
    | none => completedLoop storeFails rest

/-- Function `checkCompletedTasks`: notifies only the creator, severity `success`;
body wrapped in try/catch. -/
def checkCompletedTasks (env : Env) : List Notif × Except String Unit :=
  if env.queryFails "completedTasks" then ([], Except.ok ())
  else
    match completedLoop env.storeFails
        (env.db.tasks.filter (completedMatches env.now)) with
    | (w, _) => (w, Except.ok ())

/-! ## Daily digest checks -/

/-- One step of building the JS `Map` `userTasks`: append `t` to the entry
of `uid`, creating the entry (in insertion order) when absent. -/
def addTaskTo (groups : List (Nat × List Task)) (uid : Nat) (t : Task) :
    List (Nat × List Task) :=
  if groups.any (fun g => g.1 == uid) then
    groups.map (fun g => if g.1 == uid then (g.1, g.2 ++ [t]) else g)
  else groups ++ [(uid, [t])]

/-- The `userTasks` map of `checkPendingTasks` / `checkAssignedTasks`:
for each task in order, each of its recipients gets the task appended. -/
def groupTasksByUser (ts : List Task) : List (Nat × List Task) :=
  ts.foldl (fun groups t =>
    (taskRecipients t).foldl (fun gs uid => addTaskTo gs uid t) groups) []

/-- Mongo filter of `checkPendingTasks`: `status = pending` and `due_date`
exists and is `≥ now`. -/
def pendingMatches (now : Int) (t : Task) : Bool :=
  t.status == "pending" &&
  (match t.due_date with | some d => decide (now ≤ d) | none => false)

/-- Message of the pending-tasks digest: count, plural `s`, and the project
name of the FIRST grouped task when truthy. -/
def pendingMessage (ts : List Task) : String :=
  let taskCount := ts.length
  let projectName := match ts with
    | [] => ""
    | t0 :: _ => jsOrElse t0.project_name ""
  "You have " ++ toString taskCount ++ " pending task" ++
    (if taskCount > 1 then "s" else "") ++
    (if projectName ≠ "" then " in " ++ projectName else "") ++
    ". Check your tasks to stay on track."

/-- The notification loop of `checkPendingTasks`: one `createNotification`
per grouped user; a store failure aborts the rest of the loop (the error
propagates out of `createNotification`). -/
def pendingLoop (storeFails : Notif → Bool) :
    List (Nat × List Task) → List Notif × Except String Unit
  | [] => ([], Except.ok ())
  | (uid, ts) :: rest =>
    if ts.length > 0 then
      match createNotification storeFails uid "Pending Tasks Reminder"
          (pendingMessage ts) "info" (some "/tasks") with
      | (Except.ok _, w1) =>
        match pendingLoop storeFails rest with
        | (w2, r) => (w1 ++ w2, r)
      | (Except.error e, w1) => (w1, Except.error e)
    else pendingLoop storeFails rest

/-- Function `checkPendingTasks`: group matching tasks by user, one digest
notification per grouped user, severity `info`; body wrapped in try/catch. -/
def checkPendingTasks (env : Env) : List Notif × Except String Unit :=
  if env.queryFails "pendingTasks" then ([], Except.ok ())
  else
    match pendingLoop env.storeFails
        (groupTasksByUser (env.db.tasks.filter (pendingMatches env.now))) with
    | (w, _) => (w, Except.ok ())

/-- Mongo filter of `checkAssignedTasks`: `status ∈ {pending, in_progress}`
and (`assigned_to` exists or `assigned_users` exists and is non-empty). -/
def assignedMatches (t : Task) : Bool :=
  (t.status == "pending" || t.status == "in_progress") &&
  (t.assigned_to.isSome || !t.assigned_users.isEmpty)

/-- Function `overdueCount` over the grouped tasks of one user:
those with a due date strictly before now. -/
def overdueCount (now : Int) (ts : List Task) : Nat :=
  (ts.filter (fun t =>
    match t.due_date with | some d => decide (d < now) | none => false)).length

/-- Function `dueSoonCount` over the grouped tasks of one user:
those with `now ≤ due_date ≤ tomorrow`. -/
def dueSoonCount (now midnight : Int) (ts : List Task) : Nat :=
  (ts.filter (fun t =>
    match t.due_date with
    | some d => decide (now ≤ d) && decide (d ≤ midnight)
    | none => false)).length

/-- Message of the assigned-tasks digest: total count, then the overdue
sub-count when positive, else the due-soon sub-count when positive. -/
def assignedMessage (now midnight : Int) (ts : List Task) : String :=
  let taskCount := ts.length
  let oc := overdueCount now ts
  let dc := dueSoonCount now midnight ts
  "You have " ++ toString taskCount ++ " assigned task" ++
    (if taskCount > 1 then "s" else "") ++
    (if oc > 0 then " (" ++ toString oc ++ " overdue)"
     else if dc > 0 then " (" ++ toString dc ++ " due soon)" else "") ++
    ". Check your tasks to stay on track."

/-- The notification loop of `checkAssignedTasks`: one `createNotification`
per grouped user, severity `warning` when the user has any overdue task in
the set, else `info`. -/
def assignedLoop (storeFails : Notif → Bool) (now midnight : Int) :
    List (Nat × List Task) → List Notif × Except String Unit
  | [] => ([], Except.ok ())
  | (uid, ts) :: rest =>
    if ts.length > 0 then
      match createNotification storeFails uid "Your Assigned Tasks"
          (assignedMessage now midnight ts)
          (if overdueCount now ts > 0 then "warning" else "info")
          (some "/tasks") with
      | (Except.ok _, w1) =>
        match assignedLoop storeFails now midnight rest with
        | (w2, r) => (w1 ++ w2, r)
      | (Except.error e, w1) => (w1, Except.error e)
    else assignedLoop storeFails now midnight rest

/-- Function `checkAssignedTasks`: group matching tasks by user, one digest
notification per grouped user; body wrapped in try/catch. -/
def checkAssignedTasks (env : Env) : List Notif × Except String Unit :=
  if env.queryFails "assignedTasks" then ([], Except.ok ())
  else
    match assignedLoop env.storeFails env.now env.midnight
        (groupTasksByUser (env.db.tasks.filter assignedMatches)) with
    | (w, _) => (w, Except.ok ())

/-! ## Scheduler -/

/-- Function `runReminderChecks`: awaits the four short-cycle checks in sequence.
A raise from a check would abort the remaining checks and propagate. -/
def runReminderChecks (env : Env) : List Notif × Except String Unit :=
  match checkOverdueTasks env with
  | (w1, Except.error e) => (w1, Except.error e)
  | (w1, Except.ok _) =>
    match checkTasksDueSoon env with
    | (w2, Except.error e) => (w1 ++ w2, Except.error e)
    | (w2, Except.ok _) =>
      match checkUpcomingEvents env with
      | (w3, Except.error e) => (w1 ++ w2 ++ w3, Except.error e)
      | (w3, Except.ok _) =>
        match checkCompletedTasks env with
        | (w4, r) => (w1 ++ w2 ++ w3 ++ w4, r)

/-- A timer registered by `startReminderService`: `interval d` fires at
`d, 2d, 3d, …` after registration; `timeout d` fires once at `d`;
`timeoutThenInterval d p` fires at `d, d+p, d+2p, …`.  Each carries the
names of the check functions its callback runs, in order. -/
inductive TimerSpec where
  | interval : Int → List String → TimerSpec
  | timeout : Int → List String → TimerSpec
  | timeoutThenInterval : Int → Int → List String → TimerSpec
deriving Repr, DecidableEq

/-- The checks `runReminderChecks` runs, in order. -/
def shortCycleJobs : List String :=
  ["checkOverdueTasks", "checkTasksDueSoon", "checkUpcomingEvents",
   "checkCompletedTasks"]

/-- The checks the daily callback runs, in order. -/
def dailyCycleJobs : List String :=
  ["checkPendingTasks", "checkAssignedTasks"]

/-- Function `startReminderService` registers, at process start: a 30-minute interval
running the short cycle; a timeout at the next local midnight that runs the
daily checks and then re-runs them every 24 hours; a 60-second timeout
running the short cycle once; a 2-minute timeout running the daily checks
once.  `msUntilMidnight` is `tomorrow(00:00) - now`. -/
def startReminderService (msUntilMidnight : Int) : List TimerSpec :=
  [TimerSpec.interval (30 * 60 * 1000) shortCycleJobs,
   TimerSpec.timeoutThenInterval msUntilMidnight (24 * 60 * 60 * 1000) dailyCycleJobs,
   TimerSpec.timeout (60 * 1000) shortCycleJobs,
   TimerSpec.timeout (2 * 60 * 1000) dailyCycleJobs]

/-- When a single timer fires, in ms after registration. -/
def TimerSpec.firesAt : TimerSpec → Int → Prop
  | TimerSpec.interval p _, t => ∃ k : Nat, t = p * ((k : Int) + 1)
  | TimerSpec.timeout d _, t => t = d
  | TimerSpec.timeoutThenInterval d p _, t => ∃ k : Nat, t = d + p * (k : Int)

/-- The job list `jobs` fires at time `t` under the registered timers. -/
def firesJobsAt (timers : List TimerSpec) (jobs : List String) (t : Int) : Prop :=
  ∃ s ∈ timers, (match s with
    | TimerSpec.interval _ j => j
    | TimerSpec.timeout _ j => j
    | TimerSpec.timeoutThenInterval _ _ j => j) = jobs ∧ s.firesAt t

/-! ## Task update notification block (src/routes/tasks.js, PUT /:id) -/

/-- Function `assignedUsersArray` of the PUT handler: the `assigned_users` of the request
array when provided (JS: any array, even empty, is truthy), else a singleton
of `assigned_to` when provided, else empty. -/
def assignedUsersArray (assigned_users : Option (List Nat))
    (assigned_to : Option Nat) : List Nat :=
  match assigned_users with
  | some l => l
  | none =>
    match assigned_to with
    | some a => [a]
    | none => []

/-- Function `newAssignedUsers`: members of the new assignee array absent from the
previous `assigned_users` of the task. -/
def newAssignedUsers (currentAssignedUsers : List Nat)
    (assigned_users : Option (List Nat)) (assigned_to : Option Nat) : List Nat :=
  (assignedUsersArray assigned_users assigned_to).filter
    (fun uid => !currentAssignedUsers.contains uid)

/-- Function `titleText` of the task-update notification
(JS: a truthy project name selects the longer form with the name). -/
def taskAssignTitle (projectName : Option String) : String :=
  if jsOrElse projectName "" = "" then "Task assigned"
  else "Task assigned in " ++ jsOrElse projectName ""

/-- Function `messageText` of the task-update notification; the actor name falls back
to the literal `Someone`. -/
def taskAssignMessage (updaterName : Option String) (taskTitle : String)
    (projectName : Option String) : String :=
  if jsOrElse projectName "" = "" then
    jsOrElse updaterName "Someone" ++ " assigned you to \"" ++ taskTitle ++ "\""
  else
    jsOrElse updaterName "Someone" ++ " assigned you to \"" ++ taskTitle ++
      "\" in " ++ jsOrElse projectName ""

/-- The notification block of the PUT handler: when the delta is non-empty,
drop the updater from it and, when someone is left, fan out with
`createNotificationsForUsers` (severity `info`, link `/tasks/{id}`).
Returns the notifications written to the store. -/
def taskUpdateNotifWrites (storeFails : Notif → Bool)
    (currentAssignedUsers : List Nat) (assigned_users : Option (List Nat))
    (assigned_to : Option Nat) (updaterId : Nat) (updaterName : Option String)
    (projectName : Option String) (taskTitle : String) (taskId : Nat) :
    List Notif :=
  let newAssigned := newAssignedUsers currentAssignedUsers assigned_users assigned_to
  if newAssigned.length > 0 then
    let userIdsToNotify := newAssigned.filter (fun uid => uid ≠ updaterId)
    if userIdsToNotify.length > 0 then
      (createNotificationsForUsers storeFails userIdsToNotify
        (taskAssignTitle projectName)
        (taskAssignMessage updaterName taskTitle projectName)
        "info" (some ("/tasks/" ++ toString taskId))).2
    else []
  else []

/-! ## Claims about the Notifier (C1, C8, C10) -/

/-- C1 (counterexample): with recipients `[0, 1, 2]` and a store whose write
fails exactly for recipient `1`, recipient `2` is NOT written (the ordered
bulk insert aborts at the failure) and the call returns the empty list even
though recipient `0` was successfully written — not the partial list of
successfully created notifications. -/
theorem notifyMany_drops_partial_list_counterexample :
    (createNotificationsForUsers (fun n => n.user_id == 1) [0, 1, 2]
        "T" "M" "info" none).2 = [mkNotif 0 "T" "M" "info" none] ∧
    (createNotificationsForUsers (fun n => n.user_id == 1) [0, 1, 2]
        "T" "M" "info" none).1 = Except.ok [] ∧
    mkNotif 2 "T" "M" "info" none ∉
      (createNotificationsForUsers (fun n => n.user_id == 1) [0, 1, 2]
        "T" "M" "info" none).2 := by
  refine ⟨rfl, rfl, ?_⟩
  decide

/-- C1 (amended): `createNotificationsForUsers` never raises to its caller:
for every recipient list and store behaviour the result is `ok`.  Any store
error during the fan-out is caught and converted to a successful return of
the EMPTY list (not the partial list); and because the fan-out is one
ordered bulk insert, exactly the recipients before the first failing write
are stored, the failing one and all later ones are not. -/
theorem notifyMany_bulk_failure_behaviour (storeFails : Notif → Bool)
    (userIds : List Nat) (title message ty : String) (link : Option String) :
    (createNotificationsForUsers storeFails userIds title message ty link).1 =
      Except.ok
        (if (userIds.map (fun uid => mkNotif uid title message ty link)).any storeFails
         then [] else userIds.map (fun uid => mkNotif uid title message ty link)) ∧
    (createNotificationsForUsers storeFails userIds title message ty link).2 =
      (userIds.map (fun uid => mkNotif uid title message ty link)).takeWhile
        (fun d => !storeFails d) := by
  rw [createNotificationsForUsers_eq]
  exact ⟨rfl, rfl⟩

/-- C8: with a store on which every write of this batch succeeds,
`createNotificationsForUsers` returns and stores exactly one record per
recipient id, in order; and with an empty recipient list it returns the
empty list having performed zero store writes. -/
theorem notifyMany_success_per_recipient (storeFails : Notif → Bool)
    (userIds : List Nat) (title message ty : String) (link : Option String)
    (h : ∀ uid ∈ userIds, storeFails (mkNotif uid title message ty link) = false) :
    (createNotificationsForUsers storeFails userIds title message ty link).1 =
      Except.ok (userIds.map (fun uid => mkNotif uid title message ty link)) ∧
    (createNotificationsForUsers storeFails userIds title message ty link).2 =
      userIds.map (fun uid => mkNotif uid title message ty link) ∧
    ((createNotificationsForUsers storeFails userIds title message ty link).2).length
      = userIds.length ∧
    (userIds = [] →
      createNotificationsForUsers storeFails userIds title message ty link =
        (Except.ok [], [])) := by
  have hany : (userIds.map (fun uid => mkNotif uid title message ty link)).any storeFails
      = false := by
    rw [List.any_eq_false]
    intro d hd
    rcases List.mem_map.mp hd with ⟨uid, huid, rfl⟩
    simp [h uid huid]
  have htw : (userIds.map (fun uid => mkNotif uid title message ty link)).takeWhile
      (fun d => !storeFails d) = userIds.map (fun uid => mkNotif uid title message ty link) := by
    rw [List.takeWhile_eq_self_iff]
    intro d hd
    rcases List.mem_map.mp hd with ⟨uid, huid, rfl⟩
    simp [h uid huid]
  rcases notifyMany_bulk_failure_behaviour storeFails userIds title message ty link with
    ⟨h1, h2⟩
  refine ⟨?_, ?_, ?_, ?_⟩
  · rw [h1, hany]
    simp
  · rw [h2, htw]
  · rw [h2, htw, List.length_map]
  · intro he
    subst he
    rfl

/-- Witness for C8 at recipients `[5, 7]` on an always-succeeding store. -/
theorem notifyMany_success_per_recipient_witness :
    (createNotificationsForUsers (fun _ => false) [5, 7] "T" "M" "info" none).1 =
      Except.ok ([5, 7].map (fun uid => mkNotif uid "T" "M" "info" none)) ∧
    (createNotificationsForUsers (fun _ => false) [5, 7] "T" "M" "info" none).2 =
      [5, 7].map (fun uid => mkNotif uid "T" "M" "info" none) ∧
    ((createNotificationsForUsers (fun _ => false) [5, 7] "T" "M" "info" none).2).length
      = ([5, 7] : List Nat).length ∧
    (([5, 7] : List Nat) = [] →
      createNotificationsForUsers (fun _ => false) [5, 7] "T" "M" "info" none =
        (Except.ok [], [])) :=
  notifyMany_success_per_recipient (fun _ => false) [5, 7] "T" "M" "info" none
    (fun _ _ => rfl)

/-- C10: `createNotification` rethrows a store save error to its caller
(unlike `createNotificationsForUsers`, which never raises); consequently a
digest pass that notifies users one at a time stops at the first failing
save: in a concrete `checkPendingTasks` run over one pending task assigned
to users `[1, 2, 3]` where the save for user `2` fails, only user `1` is
notified, user `3` is skipped, and the error is absorbed only by the
outer catch of the evaluator (the check still returns ok). -/
theorem createNotification_rethrows_and_aborts_digest_loop :
    (∀ (storeFails : Notif → Bool) (uid : Nat) (title message ty : String)
      (link : Option String),
      storeFails (mkNotif uid title message ty link) = true →
      createNotification storeFails uid title message ty link =
        (Except.error "save failed", [])) ∧
    ((checkPendingTasks
        { db := { tasks := [{ id := 0, title := "t", status := "pending",
                              due_date := some 100, assigned_users := [1, 2, 3],
                              assigned_to := none, created_by := none,
                              project_name := none, updatedAt := 0 }],
                  events := [], users := [] },
          now := 0, midnight := 0,
          storeFails := fun n => n.user_id == 2,
          queryFails := fun _ => false }).1.map Notif.user_id = [1] ∧
     (checkPendingTasks
        { db := { tasks := [{ id := 0, title := "t", status := "pending",
                              due_date := some 100, assigned_users := [1, 2, 3],
                              assigned_to := none, created_by := none,
                              project_name := none, updatedAt := 0 }],
                  events := [], users := [] },
          now := 0, midnight := 0,
          storeFails := fun n => n.user_id == 2,
          queryFails := fun _ => false }).2 = Except.ok ()) := by
  refine ⟨?_, rfl, rfl⟩
  intro storeFails uid title message ty link hfail
  simp [createNotification, hfail]

/-- Witness for C10: a store that fails every write makes `createNotification`
raise at recipient `9`. -/
theorem createNotification_rethrows_witness :
    ((fun _ => true : Notif → Bool) (mkNotif 9 "T" "M" "info" none) = true) ∧
    createNotification (fun _ => true) 9 "T" "M" "info" none =
      (Except.error "save failed", []) :=
  ⟨rfl, createNotification_rethrows_and_aborts_digest_loop.1
    (fun _ => true) 9 "T" "M" "info" none rfl⟩

/-! ## Fault isolation of the scheduler cycle (C3) -/

/-- Function `checkOverdueTasks` never propagates an exception. -/
theorem checkOverdueTasks_ok (env : Env) :
    (checkOverdueTasks env).2 = Except.ok () := by
  unfold checkOverdueTasks
  split <;> rfl

/-- Function `checkTasksDueSoon` never propagates an exception. -/
theorem checkTasksDueSoon_ok (env : Env) :
    (checkTasksDueSoon env).2 = Except.ok () := by
  unfold checkTasksDueSoon
  split <;> rfl

/-- Function `checkUpcomingEvents` never propagates an exception. -/
theorem checkUpcomingEvents_ok (env : Env) :
    (checkUpcomingEvents env).2 = Except.ok () := by
  unfold checkUpcomingEvents
  split <;> rfl

/-- Function `checkCompletedTasks` never propagates an exception. -/
theorem checkCompletedTasks_ok (env : Env) :
    (checkCompletedTasks env).2 = Except.ok () := by
  unfold checkCompletedTasks
  split
  · rfl
  · split
    rfl

/-- Function `checkPendingTasks` never propagates an exception. -/
theorem checkPendingTasks_ok (env : Env) :
    (checkPendingTasks env).2 = Except.ok () := by
  unfold checkPendingTasks
  split
  · rfl
  · split
    rfl

/-- Function `checkAssignedTasks` never propagates an exception. -/
theorem checkAssignedTasks_ok (env : Env) :
    (checkAssignedTasks env).2 = Except.ok () := by
  unfold checkAssignedTasks
  split
  · rfl
  · split
    rfl

/-- C3: for every environment — any store behaviour and any combination of
query failures — each of the six check functions catches its own exceptions
(its result is always `ok`), so within one `runReminderChecks` cycle every
remaining check still runs (the writes of the cycle are exactly the four
check writes in sequence) and `runReminderChecks` itself never propagates. -/
theorem reminder_checks_fault_isolated (env : Env) :
    (runReminderChecks env).2 = Except.ok () ∧
    (runReminderChecks env).1 =
      (checkOverdueTasks env).1 ++ (checkTasksDueSoon env).1 ++
      (checkUpcomingEvents env).1 ++ (checkCompletedTasks env).1 ∧
    (checkOverdueTasks env).2 = Except.ok () ∧
    (checkTasksDueSoon env).2 = Except.ok () ∧
    (checkUpcomingEvents env).2 = Except.ok () ∧
    (checkCompletedTasks env).2 = Except.ok () ∧
    (checkPendingTasks env).2 = Except.ok () ∧
    (checkAssignedTasks env).2 = Except.ok () := by
  have e1 : checkOverdueTasks env = ((checkOverdueTasks env).1, Except.ok ()) := by
    rw [← checkOverdueTasks_ok env]
  have e2 : checkTasksDueSoon env = ((checkTasksDueSoon env).1, Except.ok ()) := by
    rw [← checkTasksDueSoon_ok env]
  have e3 : checkUpcomingEvents env = ((checkUpcomingEvents env).1, Except.ok ()) := by
    rw [← checkUpcomingEvents_ok env]
  have e4 : checkCompletedTasks env = ((checkCompletedTasks env).1, Except.ok ()) := by
    rw [← checkCompletedTasks_ok env]
  have hrun : runReminderChecks env =
      ((checkOverdueTasks env).1 ++ (checkTasksDueSoon env).1 ++
       (checkUpcomingEvents env).1 ++ (checkCompletedTasks env).1, Except.ok ()) := by
    unfold runReminderChecks
    rw [e1, e2, e3, e4]
  refine ⟨by rw [hrun], by rw [hrun], checkOverdueTasks_ok env,
    checkTasksDueSoon_ok env, checkUpcomingEvents_ok env, checkCompletedTasks_ok env,
    checkPendingTasks_ok env, checkAssignedTasks_ok env⟩

/-! ## Grouping lemmas (digest checks) -/

/-- A key test on the JS map is a membership test on its key list. -/
theorem any_fst_eq_mem (gs : List (Nat × List Task)) (uid : Nat) :
    gs.any (fun g => g.1 == uid) = true ↔ uid ∈ gs.map Prod.fst := by
  constructor
  · intro h
    rcases List.any_eq_true.mp h with ⟨g, hg, hbeq⟩
    exact List.mem_map.mpr ⟨g, hg, beq_iff_eq.mp hbeq⟩
  · intro h
    rcases List.mem_map.mp h with ⟨g, hg, heq⟩
    exact List.any_eq_true.mpr ⟨g, hg, beq_iff_eq.mpr heq⟩

/-- Function `addTaskTo` keeps the key list unchanged when the key exists, else
appends the new key at the end. -/
theorem addTaskTo_keys (gs : List (Nat × List Task)) (uid : Nat) (t : Task) :
    (addTaskTo gs uid t).map Prod.fst =
      if gs.any (fun g => g.1 == uid) then gs.map Prod.fst
      else gs.map Prod.fst ++ [uid] := by
  unfold addTaskTo
  split
  · rw [List.map_map]
    apply List.map_congr_left
    intro g _
    show (if g.1 == uid then (g.1, g.2 ++ [t]) else g).1 = g.1
    split <;> rfl
  · simp

/-- Function `addTaskTo` preserves distinctness of the keys. -/
theorem addTaskTo_keys_nodup {gs : List (Nat × List Task)} {uid : Nat} {t : Task}
    (h : (gs.map Prod.fst).Nodup) :
    ((addTaskTo gs uid t).map Prod.fst).Nodup := by
  by_cases hc : gs.any (fun g => g.1 == uid) = true
  · rw [addTaskTo_keys, if_pos hc]
    exact h
  · rw [addTaskTo_keys, if_neg hc]
    have hm : uid ∉ gs.map Prod.fst := fun hmem => hc ((any_fst_eq_mem gs uid).mpr hmem)
    rw [← List.concat_eq_append]
    exact List.Nodup.concat hm h

/-- Folding one task over its recipients preserves key distinctness. -/
theorem foldl_addTaskTo_keys_nodup (t : Task) (ids : List Nat) :
    ∀ gs : List (Nat × List Task), (gs.map Prod.fst).Nodup →
    ((ids.foldl (fun gs uid => addTaskTo gs uid t) gs).map Prod.fst).Nodup := by
  induction ids with
  | nil => intro gs h; exact h
  | cons u rest ih =>
    intro gs h
    exact ih (addTaskTo gs u t) (addTaskTo_keys_nodup h)

/-- The `userTasks` map has pairwise distinct keys: each user appears at
most once among the grouped entries. -/
theorem groupTasksByUser_keys_nodup (ts : List Task) :
    ((groupTasksByUser ts).map Prod.fst).Nodup := by
  have main : ∀ gs : List (Nat × List Task), (gs.map Prod.fst).Nodup →
      ((ts.foldl (fun groups t =>
        (taskRecipients t).foldl (fun gs uid => addTaskTo gs uid t) groups) gs).map
        Prod.fst).Nodup := by
    induction ts with
    | nil => intro gs h; exact h
    | cons t rest ih =>
      intro gs h
      exact ih _ (foldl_addTaskTo_keys_nodup t (taskRecipients t) gs h)
  exact main [] (by simp)

/-- Every notification the pending digest loop writes is addressed to one
of the grouped keys. -/
theorem pendingLoop_user_mem (sf : Notif → Bool) (gs : List (Nat × List Task)) :
    ∀ n ∈ (pendingLoop sf gs).1, n.user_id ∈ gs.map Prod.fst := by
  induction gs with
  | nil => simp [pendingLoop]
  | cons g rest ih =>
    rcases g with ⟨uid, ts⟩
    intro n hn
    by_cases hts : ts.length > 0
    · by_cases hsf : sf (mkNotif uid "Pending Tasks Reminder" (pendingMessage ts)
        "info" (some "/tasks")) = true
      · simp [pendingLoop, hts, createNotification, hsf] at hn
      · have hred : (pendingLoop sf ((uid, ts) :: rest)).1 =
            mkNotif uid "Pending Tasks Reminder" (pendingMessage ts) "info"
              (some "/tasks") :: (pendingLoop sf rest).1 := by
          simp [pendingLoop, hts, createNotification, hsf]
        rw [hred] at hn
        rcases List.mem_cons.mp hn with h | h
        · subst h; simp [mkNotif]
        · exact List.mem_cons_of_mem _ (ih n h)
    · simp only [pendingLoop, if_neg hts] at hn
      exact List.mem_cons_of_mem _ (ih n hn)

/-- The pending digest loop writes at most one notification per user when
the grouped keys are distinct. -/
theorem pendingLoop_countP_le_one (sf : Notif → Bool) (gs : List (Nat × List Task))
    (u : Nat) (h : (gs.map Prod.fst).Nodup) :
    ((pendingLoop sf gs).1.countP (fun n => n.user_id == u)) ≤ 1 := by
  induction gs with
  | nil => simp [pendingLoop]
  | cons g rest ih =>
    rcases g with ⟨uid, ts⟩
    simp only [List.map_cons, List.nodup_cons] at h
    rcases h with ⟨hnot, hrest⟩
    by_cases hts : ts.length > 0
    · by_cases hsf : sf (mkNotif uid "Pending Tasks Reminder" (pendingMessage ts)
        "info" (some "/tasks")) = true
      · simp [pendingLoop, hts, createNotification, hsf]
      · have hred : (pendingLoop sf ((uid, ts) :: rest)).1 =
            mkNotif uid "Pending Tasks Reminder" (pendingMessage ts) "info"
              (some "/tasks") :: (pendingLoop sf rest).1 := by
          simp [pendingLoop, hts, createNotification, hsf]
        rw [hred]
        by_cases hu : uid = u
        · subst hu
          have hzero : ((pendingLoop sf rest).1.countP (fun n => n.user_id == uid)) = 0 := by
            rw [List.countP_eq_zero]
            intro n hn
            have := pendingLoop_user_mem sf rest n hn
            simp only [beq_iff_eq]
            intro heq
            exact hnot (heq ▸ this)
          simp [List.countP_cons, mkNotif, hzero]
        · have : ((mkNotif uid "Pending Tasks Reminder" (pendingMessage ts) "info"
              (some "/tasks")).user_id == u) = false := by
            simp [mkNotif]
            exact hu
          simp [List.countP_cons, this]
          exact ih hrest
    · simp only [pendingLoop, if_neg hts]
      exact ih hrest

/-- Every notification the assigned-tasks digest loop writes is addressed
to one of the grouped keys. -/
theorem assignedLoop_user_mem (sf : Notif → Bool) (now midnight : Int)
    (gs : List (Nat × List Task)) :
    ∀ n ∈ (assignedLoop sf now midnight gs).1, n.user_id ∈ gs.map Prod.fst := by
  induction gs with
  | nil => simp [assignedLoop]
  | cons g rest ih =>
    rcases g with ⟨uid, ts⟩
    intro n hn
    by_cases hts : ts.length > 0
    · by_cases hsf : sf (mkNotif uid "Your Assigned Tasks"
        (assignedMessage now midnight ts)
        (if overdueCount now ts > 0 then "warning" else "info")
        (some "/tasks")) = true
      · simp [assignedLoop, hts, createNotification, hsf] at hn
      · have hred : (assignedLoop sf now midnight ((uid, ts) :: rest)).1 =
            mkNotif uid "Your Assigned Tasks" (assignedMessage now midnight ts)
              (if overdueCount now ts > 0 then "warning" else "info")
              (some "/tasks") :: (assignedLoop sf now midnight rest).1 := by
          simp [assignedLoop, hts, createNotification, hsf]
        rw [hred] at hn
        rcases List.mem_cons.mp hn with h | h
        · subst h; simp [mkNotif]
        · exact List.mem_cons_of_mem _ (ih n h)
    · simp only [assignedLoop, if_neg hts] at hn
      exact List.mem_cons_of_mem _ (ih n hn)

/-- The assigned-tasks digest loop writes at most one notification per user
when the grouped keys are distinct. -/
theorem assignedLoop_countP_le_one (sf : Notif → Bool) (now midnight : Int)
    (gs : List (Nat × List Task)) (u : Nat) (h : (gs.map Prod.fst).Nodup) :
    ((assignedLoop sf now midnight gs).1.countP (fun n => n.user_id == u)) ≤ 1 := by
  induction gs with
  | nil => simp [assignedLoop]
  | cons g rest ih =>
    rcases g with ⟨uid, ts⟩
    simp only [List.map_cons, List.nodup_cons] at h
    rcases h with ⟨hnot, hrest⟩
    by_cases hts : ts.length > 0
    · by_cases hsf : sf (mkNotif uid "Your Assigned Tasks"
        (assignedMessage now midnight ts)
        (if overdueCount now ts > 0 then "warning" else "info")
        (some "/tasks")) = true
      · simp [assignedLoop, hts, createNotification, hsf]
      · have hred : (assignedLoop sf now midnight ((uid, ts) :: rest)).1 =
            mkNotif uid "Your Assigned Tasks" (assignedMessage now midnight ts)
              (if overdueCount now ts > 0 then "warning" else "info")
              (some "/tasks") :: (assignedLoop sf now midnight rest).1 := by
          simp [assignedLoop, hts, createNotification, hsf]
        rw [hred]
        by_cases hu : uid = u
        · subst hu
          have hzero : ((assignedLoop sf now midnight rest).1.countP
              (fun n => n.user_id == uid)) = 0 := by
            rw [List.countP_eq_zero]
            intro n hn
            have := assignedLoop_user_mem sf now midnight rest n hn
            simp only [beq_iff_eq]
            intro heq
            exact hnot (heq ▸ this)
          simp [List.countP_cons, mkNotif, hzero]
        · have : ((mkNotif uid "Your Assigned Tasks" (assignedMessage now midnight ts)
              (if overdueCount now ts > 0 then "warning" else "info")
              (some "/tasks")).user_id == u) = false := by
            simp [mkNotif]
            exact hu
          simp [List.countP_cons, this]
          exact ih hrest
    · simp only [assignedLoop, if_neg hts]
      exact ih hrest

/-- C4: in every environment (any store and query behaviour), one run of the
pending-tasks digest writes at most one notification per user, and likewise
one run of the assigned-tasks digest — even when the user has many
qualifying tasks, the grouping map has one entry per recipient. -/
theorem digest_at_most_one_notification_per_user (env : Env) (u : Nat) :
    ((checkPendingTasks env).1.countP (fun n => n.user_id == u)) ≤ 1 ∧
    ((checkAssignedTasks env).1.countP (fun n => n.user_id == u)) ≤ 1 := by
  constructor
  · unfold checkPendingTasks
    by_cases hq : env.queryFails "pendingTasks"
    · simp [hq]
    · rcases hp : pendingLoop env.storeFails
        (groupTasksByUser (env.db.tasks.filter (pendingMatches env.now))) with ⟨w, r⟩
      have hle := pendingLoop_countP_le_one env.storeFails
        (groupTasksByUser (env.db.tasks.filter (pendingMatches env.now))) u
        (groupTasksByUser_keys_nodup _)
      rw [hp] at hle
      simp [hq, hp]
      exact hle
  · unfold checkAssignedTasks
    by_cases hq : env.queryFails "assignedTasks"
    · simp [hq]
    · rcases ha : assignedLoop env.storeFails env.now env.midnight
        (groupTasksByUser (env.db.tasks.filter assignedMatches)) with ⟨w, r⟩
      have hle := assignedLoop_countP_le_one env.storeFails env.now env.midnight
        (groupTasksByUser (env.db.tasks.filter assignedMatches)) u
        (groupTasksByUser_keys_nodup _)
      rw [ha] at hle
      simp [hq, ha]
      exact hle

/-! ## Scheduler cadence (C9) -/

/-- C9: after `startReminderService`, the short cycle (overdue, due-soon,
upcoming-events, completed, in that order) fires exactly at 60 seconds after
process start and at every multiple of 30 minutes thereafter; the daily
cycle (pending then assigned) fires exactly at the next local midnight
(`msUntilMidnight` after start) and every 24 hours after that, plus one
best-effort early run at 2 minutes after start. -/
theorem scheduler_fire_times (msUntilMidnight t : Int) :
    shortCycleJobs = ["checkOverdueTasks", "checkTasksDueSoon",
      "checkUpcomingEvents", "checkCompletedTasks"] ∧
    dailyCycleJobs = ["checkPendingTasks", "checkAssignedTasks"] ∧
    (firesJobsAt (startReminderService msUntilMidnight) shortCycleJobs t ↔
      (t = 60 * 1000 ∨ ∃ k : Nat, t = 30 * 60 * 1000 * ((k : Int) + 1))) ∧
    (firesJobsAt (startReminderService msUntilMidnight) dailyCycleJobs t ↔
      (t = 2 * 60 * 1000 ∨
       ∃ k : Nat, t = msUntilMidnight + 24 * 60 * 60 * 1000 * (k : Int))) := by
  have hne : dailyCycleJobs ≠ shortCycleJobs := by decide
  have hne2 : shortCycleJobs ≠ dailyCycleJobs := by decide
  refine ⟨rfl, rfl, ?_, ?_⟩
  · constructor
    · rintro ⟨s, hs, hj, hf⟩
      simp only [startReminderService, List.mem_cons, List.not_mem_nil, or_false] at hs
      rcases hs with rfl | rfl | rfl | rfl
      · exact Or.inr hf
      · exact absurd hj hne
      · exact Or.inl hf
      · exact absurd hj hne
    · rintro (rfl | ⟨k, rfl⟩)
      · refine ⟨TimerSpec.timeout (60 * 1000) shortCycleJobs, ?_, rfl, rfl⟩
        simp [startReminderService]
      · refine ⟨TimerSpec.interval (30 * 60 * 1000) shortCycleJobs, ?_, rfl, ⟨k, rfl⟩⟩
        simp [startReminderService]
  · constructor
    · rintro ⟨s, hs, hj, hf⟩
      simp only [startReminderService, List.mem_cons, List.not_mem_nil, or_false] at hs
      rcases hs with rfl | rfl | rfl | rfl
      · exact absurd hj hne2
      · exact Or.inr hf
      · exact absurd hj hne2
      · exact Or.inl hf
    · rintro (rfl | ⟨k, rfl⟩)
      · refine ⟨TimerSpec.timeout (2 * 60 * 1000) dailyCycleJobs, ?_, rfl, rfl⟩
        simp [startReminderService]
      · refine ⟨TimerSpec.timeoutThenInterval msUntilMidnight (24 * 60 * 60 * 1000)
          dailyCycleJobs, ?_, rfl, ⟨k, rfl⟩⟩
        simp [startReminderService]

/-! ## Task-update delta notifications (C2) -/

/-- On an always-succeeding store the fan-out returns and writes exactly one
record per recipient, in order. -/
theorem createNotificationsForUsers_noFail (userIds : List Nat)
    (title message ty : String) (link : Option String) :
    createNotificationsForUsers (fun _ => false) userIds title message ty link =
      (Except.ok (userIds.map (fun uid => mkNotif uid title message ty link)),
       userIds.map (fun uid => mkNotif uid title message ty link)) := by
  rw [createNotificationsForUsers_eq]
  simp [List.takeWhile_eq_self_iff]

/-- C2: for every task update (any prior assignee list, any request body,
any updater), the PUT handler writes task-assignment notifications exactly
for the delta — users in the new assignee array that are absent from the
prior `assigned_users` — minus the updater; users already assigned receive
none.  Every written record has severity `info` and link `/tasks/{id}`. -/
theorem taskUpdate_notifies_exactly_delta (current : List Nat)
    (assigned_users : Option (List Nat)) (assigned_to : Option Nat)
    (updaterId : Nat) (updaterName : Option String) (projectName : Option String)
    (taskTitle : String) (taskId : Nat) :
    (taskUpdateNotifWrites (fun _ => false) current assigned_users assigned_to
        updaterId updaterName projectName taskTitle taskId).map Notif.user_id =
      ((assignedUsersArray assigned_users assigned_to).filter
        (fun uid => !current.contains uid)).filter (fun uid => uid ≠ updaterId) ∧
    ∀ n ∈ taskUpdateNotifWrites (fun _ => false) current assigned_users assigned_to
        updaterId updaterName projectName taskTitle taskId,
      n.title = taskAssignTitle projectName ∧
      n.message = taskAssignMessage updaterName taskTitle projectName ∧
      n.type = "info" ∧
      n.link = some ("/tasks/" ++ toString taskId) := by
  have hfilter : ((assignedUsersArray assigned_users assigned_to).filter
      (fun uid => !current.contains uid)).filter (fun uid => uid ≠ updaterId) =
      (newAssignedUsers current assigned_users assigned_to).filter
        (fun uid => uid ≠ updaterId) := rfl
  rw [hfilter]
  by_cases h1 : (newAssignedUsers current assigned_users assigned_to).length > 0
  · by_cases h2 : ((newAssignedUsers current assigned_users assigned_to).filter
        (fun uid => uid ≠ updaterId)).length > 0
    · have hred : taskUpdateNotifWrites (fun _ => false) current assigned_users
          assigned_to updaterId updaterName projectName taskTitle taskId =
          ((newAssignedUsers current assigned_users assigned_to).filter
            (fun uid => uid ≠ updaterId)).map
            (fun uid => mkNotif uid (taskAssignTitle projectName)
              (taskAssignMessage updaterName taskTitle projectName) "info"
              (some ("/tasks/" ++ toString taskId))) := by
        unfold taskUpdateNotifWrites
        rw [if_pos h1, if_pos h2, createNotificationsForUsers_noFail]
      rw [hred]
      constructor
      · rw [List.map_map]
        have hcomp : (Notif.user_id ∘ fun uid => mkNotif uid (taskAssignTitle projectName)
            (taskAssignMessage updaterName taskTitle projectName) "info"
            (some ("/tasks/" ++ toString taskId))) = fun uid => uid := rfl
        rw [hcomp, List.map_id']
      · intro n hn
        rcases List.mem_map.mp hn with ⟨uid, _, rfl⟩
        exact ⟨rfl, rfl, rfl, rfl⟩
    · have hempty : ((newAssignedUsers current assigned_users assigned_to).filter
          (fun uid => uid ≠ updaterId)) = [] := by
        rcases Nat.eq_zero_or_pos ((newAssignedUsers current assigned_users
          assigned_to).filter (fun uid => uid ≠ updaterId)).length with hz | hp
        · exact List.length_eq_zero.mp hz
        · exact absurd hp h2
      have hred : taskUpdateNotifWrites (fun _ => false) current assigned_users
          assigned_to updaterId updaterName projectName taskTitle taskId = [] := by
        unfold taskUpdateNotifWrites
        rw [if_pos h1, if_neg h2]
      rw [hred, hempty]
      exact ⟨rfl, by intro n hn; exact absurd hn (List.not_mem_nil n)⟩
  · have hempty : newAssignedUsers current assigned_users assigned_to = [] := by
      rcases Nat.eq_zero_or_pos (newAssignedUsers current assigned_users
        assigned_to).length with hz | hp
      · exact List.length_eq_zero.mp hz
      · exact absurd hp h1
    have hred : taskUpdateNotifWrites (fun _ => false) current assigned_users
        assigned_to updaterId updaterName projectName taskTitle taskId = [] := by
      unfold taskUpdateNotifWrites
      rw [if_neg h1]
    rw [hred, hempty]
    exact ⟨rfl, by intro n hn; exact absurd hn (List.not_mem_nil n)⟩

/-! ## Per-task fan-out counting (C5, C7) -/

/-- Equality test of two fan-out records of the same batch reduces to the
recipient ids. -/
theorem mkNotif_beq_same (a b : Nat) (T M ty : String) (link : Option String) :
    ((mkNotif a T M ty link) == (mkNotif b T M ty link)) = (a == b) := by
  by_cases h : a = b
  · simp [h]
  · simp [mkNotif, h]

/-- Records from batches with different links are never equal. -/
theorem mkNotif_beq_ne_link (a b : Nat) (T M ty T2 M2 ty2 : String)
    (link link2 : Option String) (h : link2 ≠ link) :
    ((mkNotif a T2 M2 ty2 link2) == (mkNotif b T M ty link)) = false := by
  simp [mkNotif]
  intro _ _ _ _
  exact h

/-- Counting one target record inside its own batch: present exactly once
when the recipient is in the (distinct) recipient list. -/
theorem fanout_batch_countP_eq (ids : List Nat) (u : Nat) (T M ty : String)
    (link : Option String) (h : ids.Nodup) :
    ((if ids.length > 0 then ids.map (fun uid => mkNotif uid T M ty link)
      else []).countP (fun n => n == mkNotif u T M ty link)) =
      if ids.contains u then 1 else 0 := by
  by_cases hlen : ids.length > 0
  · rw [if_pos hlen, List.countP_map]
    have hpt : ∀ uid, ((fun n => n == mkNotif u T M ty link) ∘
        (fun uid => mkNotif uid T M ty link)) uid = (uid == u) := by
      intro uid
      exact mkNotif_beq_same uid u T M ty link
    rw [List.countP_congr (fun uid _ => by rw [hpt uid])]
    by_cases hm : u ∈ ids
    · have hcont : ids.contains u = true := by simpa using hm
      rw [if_pos hcont]
      have := List.count_eq_one_of_mem h hm
      simpa [List.count] using this
    · have hcont : ¬ ids.contains u = true := by simpa using hm
      rw [if_neg hcont]
      rw [List.countP_eq_zero]
      intro uid huid
      simp only [beq_iff_eq]
      intro heq
      exact hm (heq ▸ huid)
  · have hnil : ids = [] := by
      rcases ids with _ | ⟨a, l⟩
      · rfl
      · exact absurd (by simp) hlen
    subst hnil
    simp

/-- The shape shared by the per-entity fan-out checks: for each entity in
order, one batch of records to its recipients (skipped when empty), with a
per-entity message and link. -/
def fanoutWrites {α : Type} (l : List α) (rcp : α → List Nat) (T : String)
    (msg : α → String) (ty : String) (lnk : α → String) : List Notif :=
  (l.map (fun x =>
    if (rcp x).length > 0 then
      (rcp x).map (fun uid => mkNotif uid T (msg x) ty (some (lnk x)))
    else [])).flatten

/-- No batch of a fan-out contributes a record of an entity whose link
differs from every entity in the list. -/
theorem fanoutWrites_countP_zero {α : Type} (l : List α) (rcp : α → List Nat)
    (T : String) (msg : α → String) (ty : String) (lnk : α → String)
    (x : α) (u : Nat) (h : ∀ y ∈ l, lnk y ≠ lnk x) :
    ((fanoutWrites l rcp T msg ty lnk).countP
      (fun n => n == mkNotif u T (msg x) ty (some (lnk x)))) = 0 := by
  induction l with
  | nil => simp [fanoutWrites]
  | cons y rest ih =>
    have hy : lnk y ≠ lnk x := h y (List.mem_cons_self y rest)
    have hrest : ∀ z ∈ rest, lnk z ≠ lnk x := fun z hz => h z (List.mem_cons_of_mem y hz)
    show ((fanoutWrites (y :: rest) rcp T msg ty lnk).countP
      (fun n => n == mkNotif u T (msg x) ty (some (lnk x)))) = 0
    have hsplit : fanoutWrites (y :: rest) rcp T msg ty lnk =
        (if (rcp y).length > 0 then
          (rcp y).map (fun uid => mkNotif uid T (msg y) ty (some (lnk y)))
        else []) ++ fanoutWrites rest rcp T msg ty lnk := by
      simp [fanoutWrites]
    rw [hsplit, List.countP_append, ih hrest, Nat.add_zero, List.countP_eq_zero]
    intro n hn
    by_cases hlen : (rcp y).length > 0
    · rw [if_pos hlen] at hn
      rcases List.mem_map.mp hn with ⟨uid, _, rfl⟩
      rw [mkNotif_beq_ne_link uid u T (msg x) ty T (msg y) ty
        (some (lnk x)) (some (lnk y)) (by simpa using hy)]
      simp
    · rw [if_neg hlen] at hn
      exact absurd hn (List.not_mem_nil n)

/-- Counting the target record across a whole fan-out run: when entity links
are pairwise distinct and the recipients of `x` are distinct, the record for
user `u` and entity `x` appears exactly once if `u` is a recipient of `x`,
else zero times. -/
theorem fanoutWrites_countP {α : Type} (l : List α) (rcp : α → List Nat)
    (T : String) (msg : α → String) (ty : String) (lnk : α → String)
    (x : α) (u : Nat) (hids : (l.map lnk).Nodup) (hx : x ∈ l)
    (hrec : (rcp x).Nodup) :
    ((fanoutWrites l rcp T msg ty lnk).countP
      (fun n => n == mkNotif u T (msg x) ty (some (lnk x)))) =
      if (rcp x).contains u then 1 else 0 := by
  induction l with
  | nil => exact absurd hx (List.not_mem_nil x)
  | cons y rest ih =>
    simp only [List.map_cons, List.nodup_cons] at hids
    rcases hids with ⟨hnot, hrest⟩
    have hsplit : fanoutWrites (y :: rest) rcp T msg ty lnk =
        (if (rcp y).length > 0 then
          (rcp y).map (fun uid => mkNotif uid T (msg y) ty (some (lnk y)))
        else []) ++ fanoutWrites rest rcp T msg ty lnk := by
      simp [fanoutWrites]
    rw [hsplit, List.countP_append]
    rcases List.mem_cons.mp hx with hxy | hxr
    · subst hxy
      have hzero : ((fanoutWrites rest rcp T msg ty lnk).countP
          (fun n => n == mkNotif u T (msg x) ty (some (lnk x)))) = 0 := by
        apply fanoutWrites_countP_zero
        intro z hz heq
        exact hnot (heq ▸ List.mem_map_of_mem lnk hz)
      rw [hzero, Nat.add_zero]
      exact fanout_batch_countP_eq (rcp x) u T (msg x) ty (some (lnk x)) hrec
    · have hylx : lnk y ≠ lnk x := by
        intro heq
        exact hnot (heq ▸ List.mem_map_of_mem lnk hxr)
      have hzero : ((if (rcp y).length > 0 then
          (rcp y).map (fun uid => mkNotif uid T (msg y) ty (some (lnk y)))
        else []).countP (fun n => n == mkNotif u T (msg x) ty (some (lnk x)))) = 0 := by
        rw [List.countP_eq_zero]
        intro n hn
        by_cases hlen : (rcp y).length > 0
        · rw [if_pos hlen] at hn
          rcases List.mem_map.mp hn with ⟨uid, _, rfl⟩
          rw [mkNotif_beq_ne_link uid u T (msg x) ty T (msg y) ty
            (some (lnk x)) (some (lnk y)) (by simpa using hylx)]
          simp
        · rw [if_neg hlen] at hn
          exact absurd hn (List.not_mem_nil n)
      rw [hzero, Nat.zero_add]
      exact ih hrest hxr

/-- Appending a common prefix keeps strings distinct. -/
theorem string_append_left_cancel (s t u : String) (h : s ++ t = s ++ u) :
    t = u := by
  have h2 := congrArg String.data h
  simp only [String.data_append] at h2
  exact String.ext (List.append_cancel_left h2)

/-- Distinct rendered ids give distinct link strings. -/
theorem nodup_map_append_left {α : Type} (p : String) (f : α → String)
    (l : List α) (h : (l.map f).Nodup) :
    (l.map (fun a => p ++ f a)).Nodup := by
  have hcomp : (fun a => p ++ f a) = (fun s => p ++ s) ∘ f := rfl
  rw [hcomp, ← List.map_map]
  exact List.Nodup.map (fun s t hst => string_append_left_cancel p s t hst) h

/-- Membership in the deduplicated recipient list is membership in
`assigned_users` or being the `assigned_to` user. -/
theorem taskRecipients_contains (t : Task) (u : Nat) :
    (taskRecipients t).contains u =
      (t.assigned_users.contains u || t.assigned_to == some u) := by
  rw [Bool.eq_iff_iff]
  unfold taskRecipients
  cases hat : t.assigned_to with
  | none => simp
  | some a =>
    show (if t.assigned_users.contains a = true then t.assigned_users
          else t.assigned_users ++ [a]).contains u = true ↔ _
    by_cases hc : t.assigned_users.contains a = true
    · rw [if_pos hc]
      have hca : a ∈ t.assigned_users := by simpa using hc
      simp only [Bool.or_eq_true, beq_iff_eq, Option.some.injEq]
      constructor
      · intro h
        exact Or.inl h
      · intro h
        rcases h with h | h
        · exact h
        · subst h
          exact hc
    · rw [if_neg hc]
      simp only [Bool.or_eq_true, beq_iff_eq, Option.some.injEq]
      constructor
      · intro h
        have h2 : u ∈ t.assigned_users ∨ u = a := by simpa using h
        rcases h2 with h2 | h2
        · exact Or.inl (by simpa using h2)
        · exact Or.inr h2.symm
      · intro h
        have h2 : u ∈ t.assigned_users ∨ u = a := by
          rcases h with h | h
          · exact Or.inl (by simpa using h)
          · exact Or.inr h.symm
        simpa using h2

/-- The writes of `checkOverdueTasks` on an always-succeeding store are a
fan-out over the matching tasks. -/
theorem checkOverdueTasks_noFail_writes (db : DB) (now midnight : Int) :
    (checkOverdueTasks { db := db, now := now, midnight := midnight,
                         storeFails := fun _ => false,
                         queryFails := fun _ => false }).1 =
    fanoutWrites (db.tasks.filter (overdueMatches now)) taskRecipients
      "Task Overdue" overdueMessage "warning"
      (fun t => "/tasks/" ++ toString t.id) := by
  unfold checkOverdueTasks fanoutWrites
  rw [if_neg (by simp)]
  show ((db.tasks.filter (overdueMatches now)).map _).flatten = _
  apply congrArg List.flatten
  apply List.map_congr_left
  intro t _
  by_cases hlen : (taskRecipients t).length > 0
  · rw [if_pos hlen, if_pos hlen, createNotificationsForUsers_noFail]
  · rw [if_neg hlen, if_neg hlen]

/-- The writes of `checkUpcomingEvents` on an always-succeeding store are a
broadcast fan-out over the matching events. -/
theorem checkUpcomingEvents_noFail_writes (db : DB) (now midnight : Int) :
    (checkUpcomingEvents { db := db, now := now, midnight := midnight,
                           storeFails := fun _ => false,
                           queryFails := fun _ => false }).1 =
    fanoutWrites (db.events.filter (upcomingMatches now midnight))
      (fun _ => db.users) "Upcoming Event" upcomingMessage "info"
      (fun e => "/events/" ++ toString e.id) := by
  unfold checkUpcomingEvents fanoutWrites
  rw [if_neg (by simp)]
  show ((db.events.filter (upcomingMatches now midnight)).map _).flatten = _
  apply congrArg List.flatten
  apply List.map_congr_left
  intro e _
  by_cases hlen : db.users.length > 0
  · rw [if_pos hlen, if_pos hlen, createNotificationsForUsers_noFail]
  · rw [if_neg hlen, if_neg hlen]

/-- C5: in a run of `checkOverdueTasks` (succeeding store), the record for
user `u`, task `t` — title `Task Overdue`, severity `warning`, the overdue
message, link `/tasks/{id}` — is written exactly once iff `t` has a due date
strictly before now, status pending or in-progress, and `u` is in the
deduplicated union of `assigned_users` and `assigned_to`; otherwise it is
not written at all. -/
theorem overdue_one_notification_per_task_recipient
    (db : DB) (now midnight : Int) (t : Task) (u : Nat)
    (hids : (db.tasks.map (fun x => toString x.id)).Nodup)
    (ht : t ∈ db.tasks) (hrec : (taskRecipients t).Nodup) :
    ((checkOverdueTasks { db := db, now := now, midnight := midnight,
                          storeFails := fun _ => false,
                          queryFails := fun _ => false }).1.countP
      (fun n => n == mkNotif u "Task Overdue" (overdueMessage t) "warning"
        (some ("/tasks/" ++ toString t.id)))) =
      if ((match t.due_date with
           | some d => decide (d < now)
           | none => false) &&
          (t.status == "pending" || t.status == "in_progress")) &&
         (t.assigned_users.contains u || t.assigned_to == some u)
      then 1 else 0 := by
  rw [checkOverdueTasks_noFail_writes]
  have hcond : (((match t.due_date with
        | some d => decide (d < now)
        | none => false) &&
      (t.status == "pending" || t.status == "in_progress")) &&
      (t.assigned_users.contains u || t.assigned_to == some u)) =
      (overdueMatches now t && (taskRecipients t).contains u) := by
    rw [taskRecipients_contains]
    rfl
  rw [hcond]
  by_cases hm : overdueMatches now t = true
  · have hx : t ∈ db.tasks.filter (overdueMatches now) :=
      List.mem_filter.mpr ⟨ht, hm⟩
    have hlnk : ((db.tasks.filter (overdueMatches now)).map
        (fun x => "/tasks/" ++ toString x.id)).Nodup := by
      apply nodup_map_append_left
      exact List.Nodup.sublist (List.Sublist.map _ (List.filter_sublist _)) hids
    have hcount := fanoutWrites_countP (db.tasks.filter (overdueMatches now))
      taskRecipients "Task Overdue" overdueMessage "warning"
      (fun x => "/tasks/" ++ toString x.id) t u hlnk hx hrec
    rw [hcount, hm]
    simp
  · have hmf : overdueMatches now t = false := by
      simpa using hm
    have hz : ∀ y ∈ db.tasks.filter (overdueMatches now),
        ("/tasks/" ++ toString y.id) ≠ ("/tasks/" ++ toString t.id) := by
      intro y hy heq
      have hy1 : y ∈ db.tasks := (List.mem_filter.mp hy).1
      have hy2 : overdueMatches now y = true := (List.mem_filter.mp hy).2
      have hts : toString y.id = toString t.id :=
        string_append_left_cancel "/tasks/" _ _ heq
      have hyt : y = t := List.inj_on_of_nodup_map hids hy1 ht hts
      rw [hyt, hmf] at hy2
      exact Bool.false_ne_true hy2
    have hcount := fanoutWrites_countP_zero (db.tasks.filter (overdueMatches now))
      taskRecipients "Task Overdue" overdueMessage "warning"
      (fun x => "/tasks/" ++ toString x.id) t u hz
    rw [hcount, hmf]
    simp

/-- The task of the overdue scenario in the spec. -/
def wrTask : Task :=
  { id := 0, title := "Write report", status := "pending",
    due_date := some (-86400000), assigned_users := [1, 2],
    assigned_to := none, created_by := none, project_name := none,
    updatedAt := 0 }

/-- A snapshot holding only the overdue-scenario task. -/
def wrDB : DB :=
  { tasks := [wrTask], events := [], users := [] }

/-- Witness for C5: the spec scenario — a pending task due yesterday with
`assigned_users = [1, 2]` — yields the overdue record for user 1 exactly
once. -/
theorem overdue_one_notification_witness :
    (wrDB.tasks.map (fun x => toString x.id)).Nodup ∧
    wrTask ∈ wrDB.tasks ∧
    (taskRecipients wrTask).Nodup ∧
    ((checkOverdueTasks { db := wrDB, now := 0, midnight := 0,
                          storeFails := fun _ => false,
                          queryFails := fun _ => false }).1.countP
      (fun n => n == mkNotif 1 "Task Overdue" (overdueMessage wrTask) "warning"
        (some ("/tasks/" ++ toString wrTask.id)))) = 1 := by
  refine ⟨by decide, by decide, by decide, ?_⟩
  rw [overdue_one_notification_per_task_recipient wrDB 0 0 wrTask 1
    (by decide) (by decide) (by decide)]
  decide

/-- An event starting exactly at the next local midnight. -/
def midnightEvent : Event :=
  { id := 0, title := "Boundary", start_date := 1000, is_online := false,
    online_platform := none, location := none, project_name := none }

/-- C7 (counterexample): the selection window of `checkUpcomingEvents` is
`$gte now, $lte tomorrow` — CLOSED at the midnight bound.  An event whose
`start_date` equals the next local midnight is outside the claimed half-open
window `[now, midnight)` yet is selected and produces a notification. -/
theorem upcoming_half_open_window_counterexample :
    ¬ (midnightEvent.start_date < (1000 : Int)) ∧
    upcomingMatches 0 1000 midnightEvent = true ∧
    ((checkUpcomingEvents { db := { tasks := [], events := [midnightEvent],
                                    users := [7] },
                            now := 0, midnight := 1000,
                            storeFails := fun _ => false,
                            queryFails := fun _ => false }).1.length) = 1 := by
  refine ⟨by decide, by decide, rfl⟩

/-- C7 (amended): `checkUpcomingEvents` selects exactly the events with
`now ≤ start_date ≤ next local midnight` (closed window); for each selected
event it writes exactly one record per user in the whole system (broadcast,
independent of project membership), title `Upcoming Event`, severity `info`,
link `/events/{id}`, message built from the formatted date/time and the
location — `on {online_platform}` with literal fallbacks `online platform`
and `location TBD`. -/
theorem upcoming_broadcast_once_per_event_user
    (db : DB) (now midnight : Int) (e : Event) (u : Nat)
    (hids : (db.events.map (fun x => toString x.id)).Nodup)
    (he : e ∈ db.events) (husers : db.users.Nodup) :
    (((checkUpcomingEvents { db := db, now := now, midnight := midnight,
                             storeFails := fun _ => false,
                             queryFails := fun _ => false }).1.countP
      (fun n => n == mkNotif u "Upcoming Event" (upcomingMessage e) "info"
        (some ("/events/" ++ toString e.id)))) =
      if (decide (now ≤ e.start_date) && decide (e.start_date ≤ midnight)) &&
         db.users.contains u then 1 else 0) ∧
    (e.is_online = true →
      locationText e = "on " ++ jsOrElse e.online_platform "online platform") ∧
    (e.is_online = false →
      locationText e = jsOrElse e.location "location TBD") := by
  refine ⟨?_, ?_, ?_⟩
  · rw [checkUpcomingEvents_noFail_writes]
    have hcond : ((decide (now ≤ e.start_date) && decide (e.start_date ≤ midnight)) &&
        db.users.contains u) = (upcomingMatches now midnight e && db.users.contains u) :=
      rfl
    rw [hcond]
    by_cases hm : upcomingMatches now midnight e = true
    · have hx : e ∈ db.events.filter (upcomingMatches now midnight) :=
        List.mem_filter.mpr ⟨he, hm⟩
      have hlnk : ((db.events.filter (upcomingMatches now midnight)).map
          (fun x => "/events/" ++ toString x.id)).Nodup := by
        apply nodup_map_append_left
        exact List.Nodup.sublist (List.Sublist.map _ (List.filter_sublist _)) hids
      have hcount := fanoutWrites_countP
        (db.events.filter (upcomingMatches now midnight)) (fun _ => db.users)
        "Upcoming Event" upcomingMessage "info"
        (fun x => "/events/" ++ toString x.id) e u hlnk hx husers
      rw [hcount, hm]
      simp
    · have hmf : upcomingMatches now midnight e = false := by simpa using hm
      have hz : ∀ y ∈ db.events.filter (upcomingMatches now midnight),
          ("/events/" ++ toString y.id) ≠ ("/events/" ++ toString e.id) := by
        intro y hy heq
        have hy1 : y ∈ db.events := (List.mem_filter.mp hy).1
        have hy2 : upcomingMatches now midnight y = true := (List.mem_filter.mp hy).2
        have hts : toString y.id = toString e.id :=
          string_append_left_cancel "/events/" _ _ heq
        have hye : y = e := List.inj_on_of_nodup_map hids hy1 he hts
        rw [hye, hmf] at hy2
        exact Bool.false_ne_true hy2
      have hcount := fanoutWrites_countP_zero
        (db.events.filter (upcomingMatches now midnight)) (fun _ => db.users)
        "Upcoming Event" upcomingMessage "info"
        (fun x => "/events/" ++ toString x.id) e u hz
      rw [hcount, hmf]
      simp
  · intro h
    simp [locationText, h]
  · intro h
    simp [locationText, h]

/-- The event of the upcoming-event scenario in the spec. -/
def standupEvent : Event :=
  { id := 0, title := "Standup", start_date := 7200000, is_online := true,
    online_platform := some "zoom", location := none, project_name := none }

/-- A snapshot holding the standup event and three users. -/
def standupDB : DB :=
  { tasks := [], events := [standupEvent], users := [1, 2, 3] }

/-- Witness for C7 (amended): an online event on platform `zoom` starting in
two hours, with three users in the system, yields the record for user 1
exactly once; the run writes three records in total and the message ends in
`on zoom.`. -/
theorem upcoming_broadcast_once_witness :
    (standupDB.events.map (fun x => toString x.id)).Nodup ∧
    standupEvent ∈ standupDB.events ∧
    standupDB.users.Nodup ∧
    upcomingMessage standupEvent =
      "\"Standup\" is happening on <date 7200000> at <time 7200000> on zoom." ∧
    ((checkUpcomingEvents { db := standupDB, now := 0, midnight := 86400000,
                            storeFails := fun _ => false,
                            queryFails := fun _ => false }).1.length) = 3 ∧
    ((checkUpcomingEvents { db := standupDB, now := 0, midnight := 86400000,
                            storeFails := fun _ => false,
                            queryFails := fun _ => false }).1.countP
      (fun n => n == mkNotif 1 "Upcoming Event" (upcomingMessage standupEvent)
        "info" (some ("/events/" ++ toString standupEvent.id)))) = 1 := by
  refine ⟨by decide, by decide, by decide, rfl, rfl, ?_⟩
  rw [(upcoming_broadcast_once_per_event_user standupDB 0 86400000 standupEvent 1
    (by decide) (by decide) (by decide)).1]
  decide

/-! ## Entry characterization of the grouping map (C6) -/

/-- The value stored in the JS map for key `uid` (empty when absent). -/
def entryOf (gs : List (Nat × List Task)) (uid : Nat) : List Task :=
  match gs.find? (fun g => g.1 == uid) with
  | some g => g.2
  | none => []

/-- One `addTaskTo` step appends `t` to the entry of exactly its key. -/
theorem entryOf_addTaskTo (gs : List (Nat × List Task)) (uid : Nat) (t : Task)
    (v : Nat) :
    entryOf (addTaskTo gs uid t) v =
      if v = uid then entryOf gs v ++ [t] else entryOf gs v := by
  unfold addTaskTo
  by_cases hc : gs.any (fun g => g.1 == uid) = true
  · rw [if_pos hc]
    unfold entryOf
    have hpred : ((fun g : Nat × List Task => g.1 == v) ∘
        (fun g : Nat × List Task => if g.1 == uid then (g.1, g.2 ++ [t]) else g)) =
        (fun g : Nat × List Task => g.1 == v) := by
      funext g
      show ((if g.1 == uid then (g.1, g.2 ++ [t]) else g).1 == v) = (g.1 == v)
      split <;> rfl
    rw [List.find?_map, hpred]
    by_cases hv : v = uid
    · subst hv
      cases hfind : List.find? (fun g => g.1 == v) gs with
      | none =>
        exfalso
        rcases List.any_eq_true.mp hc with ⟨g0, hg0mem, hg0p⟩
        exact List.find?_eq_none.mp hfind g0 hg0mem hg0p
      | some g0 =>
        have hp := List.find?_some hfind
        have hpv : g0.1 = v := beq_iff_eq.mp hp
        simp [hp, hpv]
    · rw [if_neg hv]
      cases hfind : List.find? (fun g => g.1 == v) gs with
      | none => simp
      | some g0 =>
        have hp := List.find?_some hfind
        have hpv : g0.1 = v := beq_iff_eq.mp hp
        simp [hpv, hv]
  · rw [if_neg hc]
    unfold entryOf
    rw [List.find?_append]
    have huv : ∀ w : Nat,
        List.find? (fun g => g.1 == w) [((uid, [t]) : Nat × List Task)] =
          if uid = w then some (uid, [t]) else none := by
      intro w
      by_cases h : uid = w
      · subst h
        simp [List.find?]
      · have : (uid == w) = false := beq_eq_false_iff_ne.mpr h
        simp [List.find?, this, h]
    by_cases hv : v = uid
    · subst hv
      have hnone2 : List.find? (fun g => g.1 == v) gs = none := by
        rw [List.find?_eq_none]
        intro g0 hg0 hp
        exact hc (List.any_eq_true.mpr ⟨g0, hg0, hp⟩)
      rw [hnone2, huv v, if_pos rfl, if_pos rfl]
      simp
    · rw [if_neg hv]
      cases hfind : List.find? (fun g => g.1 == v) gs with
      | none =>
        rw [huv v, if_neg (fun h => hv h.symm)]
        simp
      | some g0 => simp

/-- Folding one task over its (distinct) recipients appends it to exactly
the entries of those recipients. -/
theorem entryOf_foldl_recipients (t : Task) (ids : List Nat) (hnd : ids.Nodup) :
    ∀ (gs : List (Nat × List Task)) (v : Nat),
    entryOf (ids.foldl (fun gs uid => addTaskTo gs uid t) gs) v =
      if ids.contains v then entryOf gs v ++ [t] else entryOf gs v := by
  induction ids with
  | nil =>
    intro gs v
    simp
  | cons u rest ih =>
    intro gs v
    simp only [List.nodup_cons] at hnd
    rcases hnd with ⟨hnotin, hrest⟩
    show entryOf (rest.foldl (fun gs uid => addTaskTo gs uid t) (addTaskTo gs u t)) v = _
    rw [ih hrest (addTaskTo gs u t) v, entryOf_addTaskTo]
    by_cases hvu : v = u
    · subst hvu
      have hnc : rest.contains v = false := by
        rw [← Bool.not_eq_true]
        intro h
        exact hnotin (by simpa using h)
      rw [hnc]
      simp [if_pos rfl]
    · have hcons : ((u :: rest).contains v) = rest.contains v := by
        rw [Bool.eq_iff_iff]
        simp [List.mem_cons, hvu]
      rw [if_neg hvu, hcons]

/-- Folding a task list into the map appends each task to the entries of
its recipients, in task order. -/
theorem entryOf_foldl_tasks (ts : List Task) :
    ∀ (gs : List (Nat × List Task)) (v : Nat),
    (∀ t ∈ ts, (taskRecipients t).Nodup) →
    entryOf (ts.foldl (fun groups t =>
      (taskRecipients t).foldl (fun gs uid => addTaskTo gs uid t) groups) gs) v =
      entryOf gs v ++ ts.filter (fun t => (taskRecipients t).contains v) := by
  induction ts with
  | nil =>
    intro gs v _
    simp
  | cons t rest ih =>
    intro gs v hrec
    have hrect : (taskRecipients t).Nodup := hrec t (List.mem_cons_self t rest)
    have hrecr : ∀ x ∈ rest, (taskRecipients x).Nodup :=
      fun x hx => hrec x (List.mem_cons_of_mem t hx)
    show entryOf (rest.foldl _
      ((taskRecipients t).foldl (fun gs uid => addTaskTo gs uid t) gs)) v = _
    rw [ih _ v hrecr, entryOf_foldl_recipients t (taskRecipients t) hrect gs v,
      List.filter_cons]
    by_cases hcv : (taskRecipients t).contains v = true
    · rw [hcv, if_pos rfl]
      simp
    · have hcvf : (taskRecipients t).contains v = false := by simpa using hcv
      rw [hcvf]
      simp

/-- The grouped entry of user `v` is exactly the matching tasks that list
`v` as a recipient, in order (recipient lists assumed duplicate-free, as an
id set). -/
theorem entryOf_groupTasksByUser (ts : List Task) (v : Nat)
    (hrec : ∀ t ∈ ts, (taskRecipients t).Nodup) :
    entryOf (groupTasksByUser ts) v =
      ts.filter (fun t => (taskRecipients t).contains v) := by
  unfold groupTasksByUser
  rw [entryOf_foldl_tasks ts [] v hrec]
  rfl

/-- In a map with distinct keys, a member pair is what lookup finds. -/
theorem find?_eq_of_mem_of_nodup (gs : List (Nat × List Task))
    (hkeys : (gs.map Prod.fst).Nodup) (u : Nat) (l : List Task)
    (h : (u, l) ∈ gs) :
    List.find? (fun g => g.1 == u) gs = some (u, l) := by
  induction gs with
  | nil => exact absurd h (List.not_mem_nil _)
  | cons g rest ih =>
    simp only [List.map_cons, List.nodup_cons] at hkeys
    rcases hkeys with ⟨hnot, hrest⟩
    rcases List.mem_cons.mp h with hg | hg
    · subst hg
      simp [List.find?]
    · have hgu : (g.1 == u) = false := by
        apply beq_eq_false_iff_ne.mpr
        intro heq
        apply hnot
        rw [heq]
        exact List.mem_map_of_mem Prod.fst hg
      have : List.find? (fun g => g.1 == u) (g :: rest) =
          List.find? (fun g => g.1 == u) rest := by
        simp [List.find?, hgu]
      rw [this]
      exact ih hrest hg

/-- Function `entryOf` agrees with map membership when keys are distinct. -/
theorem entryOf_eq_of_mem (gs : List (Nat × List Task))
    (hkeys : (gs.map Prod.fst).Nodup) (u : Nat) (l : List Task)
    (h : (u, l) ∈ gs) : entryOf gs u = l := by
  unfold entryOf
  rw [find?_eq_of_mem_of_nodup gs hkeys u l h]

/-- Function `addTaskTo` never creates an empty entry. -/
theorem addTaskTo_entries_nonempty (gs : List (Nat × List Task)) (uid : Nat)
    (t : Task) (h : ∀ p ∈ gs, p.2 ≠ []) :
    ∀ p ∈ addTaskTo gs uid t, p.2 ≠ [] := by
  intro p hp
  unfold addTaskTo at hp
  by_cases hc : gs.any (fun g => g.1 == uid) = true
  · rw [if_pos hc] at hp
    rcases List.mem_map.mp hp with ⟨q, hq, rfl⟩
    by_cases hqu : (q.1 == uid) = true
    · simp only [hqu, if_true]
      simp
    · have : (if q.1 == uid then (q.1, q.2 ++ [t]) else q) = q := by
        rw [if_neg hqu]
      rw [this]
      exact h q hq
  · rw [if_neg hc] at hp
    rcases List.mem_append.mp hp with hq | hq
    · exact h p hq
    · have : p = (uid, [t]) := by simpa using hq
      rw [this]
      simp

/-- Every entry of the grouping map is non-empty. -/
theorem groupTasksByUser_entries_nonempty (ts : List Task) :
    ∀ p ∈ groupTasksByUser ts, p.2 ≠ [] := by
  have inner : ∀ (ids : List Nat) (t : Task) (gs : List (Nat × List Task)),
      (∀ p ∈ gs, p.2 ≠ []) →
      ∀ p ∈ ids.foldl (fun gs uid => addTaskTo gs uid t) gs, p.2 ≠ [] := by
    intro ids t
    induction ids with
    | nil => intro gs h; exact h
    | cons u rest ih =>
      intro gs h
      exact ih (addTaskTo gs u t) (addTaskTo_entries_nonempty gs u t h)
  have outer : ∀ (l : List Task) (gs : List (Nat × List Task)),
      (∀ p ∈ gs, p.2 ≠ []) →
      ∀ p ∈ l.foldl (fun groups t =>
        (taskRecipients t).foldl (fun gs uid => addTaskTo gs uid t) groups) gs,
      p.2 ≠ [] := by
    intro l
    induction l with
    | nil => intro gs h; exact h
    | cons t rest ih =>
      intro gs h
      exact ih _ (inner (taskRecipients t) t gs h)
  exact outer ts [] (by intro p hp; exact absurd hp (List.not_mem_nil p))

/-- The writes of the assigned-tasks loop on an always-succeeding store:
one record per grouped user with a non-empty set, in map order. -/
theorem assignedLoop_noFail_writes (now midnight : Int)
    (gs : List (Nat × List Task)) :
    (assignedLoop (fun _ => false) now midnight gs).1 =
      (gs.filter (fun g => g.2.length > 0)).map (fun g =>
        mkNotif g.1 "Your Assigned Tasks" (assignedMessage now midnight g.2)
          (if overdueCount now g.2 > 0 then "warning" else "info")
          (some "/tasks")) := by
  induction gs with
  | nil => simp [assignedLoop]
  | cons g rest ih =>
    rcases g with ⟨uid, ts⟩
    by_cases hts : ts.length > 0
    · have hred : (assignedLoop (fun _ => false) now midnight ((uid, ts) :: rest)).1 =
          mkNotif uid "Your Assigned Tasks" (assignedMessage now midnight ts)
            (if overdueCount now ts > 0 then "warning" else "info")
            (some "/tasks") :: (assignedLoop (fun _ => false) now midnight rest).1 := by
        simp [assignedLoop, hts, createNotification]
      rw [hred, ih]
      have hfil : List.filter (fun g => decide (g.2.length > 0)) ((uid, ts) :: rest) =
          (uid, ts) :: List.filter (fun g => decide (g.2.length > 0)) rest := by
        rw [List.filter_cons]
        simp [hts]
      rw [hfil, List.map_cons]
    · have hred : (assignedLoop (fun _ => false) now midnight ((uid, ts) :: rest)).1 =
          (assignedLoop (fun _ => false) now midnight rest).1 := by
        simp [assignedLoop, hts]
      rw [hred, ih]
      have hfil : List.filter (fun g => decide (g.2.length > 0)) ((uid, ts) :: rest) =
          List.filter (fun g => decide (g.2.length > 0)) rest := by
        rw [List.filter_cons]
        simp [hts]
      rw [hfil]

/-- C6: in an assigned-tasks digest run (succeeding store), each grouped
user `u` with grouped set `ts` (which is exactly the matching tasks naming
`u`) receives exactly one notification; its severity is `warning` iff the
overdue-within-set count is positive, else `info`; and in the message the
overdue sub-count takes precedence — the due-soon sub-count is mentioned
only when the overdue count is zero. -/
theorem assigned_digest_severity_and_message
    (db : DB) (now midnight : Int) (u : Nat) (ts : List Task)
    (hrec : ∀ t ∈ db.tasks, (taskRecipients t).Nodup)
    (hmem : (u, ts) ∈ groupTasksByUser (db.tasks.filter assignedMatches)) :
    ts = (db.tasks.filter assignedMatches).filter
      (fun t => (taskRecipients t).contains u) ∧
    ((checkAssignedTasks { db := db, now := now, midnight := midnight,
                           storeFails := fun _ => false,
                           queryFails := fun _ => false }).1.countP
      (fun n => n.user_id == u)) = 1 ∧
    ∀ n ∈ (checkAssignedTasks { db := db, now := now, midnight := midnight,
                                storeFails := fun _ => false,
                                queryFails := fun _ => false }).1,
      n.user_id = u →
      ((n.type = "warning" ↔ 0 < overdueCount now ts) ∧
       (n.type = "info" ↔ overdueCount now ts = 0) ∧
       (0 < overdueCount now ts →
         n.message = "You have " ++ toString ts.length ++ " assigned task" ++
           (if ts.length > 1 then "s" else "") ++
           (" (" ++ toString (overdueCount now ts) ++ " overdue)") ++
           ". Check your tasks to stay on track.") ∧
       (overdueCount now ts = 0 → 0 < dueSoonCount now midnight ts →
         n.message = "You have " ++ toString ts.length ++ " assigned task" ++
           (if ts.length > 1 then "s" else "") ++
           (" (" ++ toString (dueSoonCount now midnight ts) ++ " due soon)") ++
           ". Check your tasks to stay on track.") ∧
       (overdueCount now ts = 0 → dueSoonCount now midnight ts = 0 →
         n.message = "You have " ++ toString ts.length ++ " assigned task" ++
           (if ts.length > 1 then "s" else "") ++
           ". Check your tasks to stay on track.")) := by
  have hrecF : ∀ t ∈ db.tasks.filter assignedMatches, (taskRecipients t).Nodup :=
    fun t htf => hrec t (List.mem_filter.mp htf).1
  have hkeys := groupTasksByUser_keys_nodup (db.tasks.filter assignedMatches)
  have hts : ts = (db.tasks.filter assignedMatches).filter
      (fun t => (taskRecipients t).contains u) := by
    rw [← entryOf_groupTasksByUser (db.tasks.filter assignedMatches) u hrecF]
    exact (entryOf_eq_of_mem _ hkeys u ts hmem).symm
  have htsne : ts ≠ [] :=
    groupTasksByUser_entries_nonempty (db.tasks.filter assignedMatches) (u, ts) hmem
  have htslen : ts.length > 0 := List.length_pos.mpr htsne
  have hwrites : (checkAssignedTasks { db := db, now := now, midnight := midnight,
                                       storeFails := fun _ => false,
                                       queryFails := fun _ => false }).1 =
      (assignedLoop (fun _ => false) now midnight
        (groupTasksByUser (db.tasks.filter assignedMatches))).1 := by
    unfold checkAssignedTasks
    rw [if_neg (by simp)]
  refine ⟨hts, ?_, ?_⟩
  · rw [hwrites, assignedLoop_noFail_writes, List.countP_map]
    have hstep : ((groupTasksByUser (db.tasks.filter assignedMatches)).filter
        (fun g => decide (g.2.length > 0))).countP
        ((fun n => n.user_id == u) ∘ (fun g => mkNotif g.1 "Your Assigned Tasks"
          (assignedMessage now midnight g.2)
          (if overdueCount now g.2 > 0 then "warning" else "info")
          (some "/tasks"))) =
        ((groupTasksByUser (db.tasks.filter assignedMatches)).filter
          (fun g => decide (g.2.length > 0))).countP (fun g => g.1 == u) :=
      List.countP_congr (fun g _ => Iff.rfl)
    rw [hstep]
    have hmemf : (u, ts) ∈ (groupTasksByUser (db.tasks.filter assignedMatches)).filter
        (fun g => decide (g.2.length > 0)) := by
      apply List.mem_filter.mpr
      exact ⟨hmem, by simpa using htslen⟩
    have hkeysf : (((groupTasksByUser (db.tasks.filter assignedMatches)).filter
        (fun g => decide (g.2.length > 0))).map Prod.fst).Nodup :=
      List.Nodup.sublist (List.Sublist.map _ (List.filter_sublist _)) hkeys
    have humem : u ∈ ((groupTasksByUser (db.tasks.filter assignedMatches)).filter
        (fun g => decide (g.2.length > 0))).map Prod.fst :=
      List.mem_map_of_mem Prod.fst hmemf
    have hcnt := List.count_eq_one_of_mem hkeysf humem
    simpa [List.count, List.countP_map, Function.comp] using hcnt
  · intro n hn hnu
    rw [hwrites, assignedLoop_noFail_writes] at hn
    rcases List.mem_map.mp hn with ⟨g, hgmem, rfl⟩
    have hgu : g.1 = u := hnu
    have hgroups : g ∈ groupTasksByUser (db.tasks.filter assignedMatches) :=
      (List.mem_filter.mp hgmem).1
    have hg2 : g.2 = ts := by
      have h1 : entryOf (groupTasksByUser (db.tasks.filter assignedMatches)) u = ts :=
        entryOf_eq_of_mem _ hkeys u ts hmem
      have hpair : (u, g.2) ∈ groupTasksByUser (db.tasks.filter assignedMatches) := by
        rw [← hgu]
        exact hgroups
      have h2 : entryOf (groupTasksByUser (db.tasks.filter assignedMatches)) u = g.2 :=
        entryOf_eq_of_mem _ hkeys u g.2 hpair
      rw [h1] at h2
      exact h2.symm
    simp only [mkNotif, hg2]
    by_cases hoc : 0 < overdueCount now ts
    · rw [if_pos hoc]
      refine ⟨⟨fun _ => hoc, fun _ => rfl⟩,
        ⟨fun h => absurd h (by decide), fun h => absurd hoc (by rw [h]; simp)⟩,
        fun _ => ?_, fun h0 _ => absurd hoc (by rw [h0]; simp),
        fun h0 _ => absurd hoc (by rw [h0]; simp)⟩
      simp [assignedMessage, hoc]
    · have hoc0 : overdueCount now ts = 0 := Nat.eq_zero_of_not_pos hoc
      rw [if_neg hoc]
      refine ⟨⟨fun h => absurd h (by decide), fun h => absurd h hoc⟩,
        ⟨fun _ => hoc0, fun _ => rfl⟩,
        fun h => absurd h hoc, fun _ hdc => ?_, fun _ hdc0 => ?_⟩
      · simp [assignedMessage, hoc0, hdc]
      · simp [assignedMessage, hoc0, hdc0]

/-- A pending task due in the past, assigned to user 4. -/
def digestTask : Task :=
  { id := 0, title := "t", status := "pending", due_date := some (-5),
    assigned_users := [4], assigned_to := none, created_by := none,
    project_name := none, updatedAt := 0 }

/-- A snapshot holding only `digestTask`. -/
def digestDB : DB :=
  { tasks := [digestTask], events := [], users := [] }

/-- Witness for C6: user 4 is grouped onto the single matching task and
receives exactly one digest notification in the run. -/
theorem assigned_digest_witness :
    (∀ t ∈ digestDB.tasks, (taskRecipients t).Nodup) ∧
    (4, [digestTask]) ∈ groupTasksByUser (digestDB.tasks.filter assignedMatches) ∧
    ((checkAssignedTasks { db := digestDB, now := 0, midnight := 100,
                           storeFails := fun _ => false,
                           queryFails := fun _ => false }).1.countP
      (fun n => n.user_id == 4)) = 1 :=
  ⟨by decide, by decide,
    (assigned_digest_severity_and_message digestDB 0 100 4 [digestTask]
      (by decide) (by decide)).2.1⟩

/-- Witness for C2: updating assignees from `[1]` to `[1, 2, 3]` with
updater `9` notifies exactly users 2 and 3, not user 1. -/
theorem taskUpdate_notifies_exactly_delta_witness :
    (taskUpdateNotifWrites (fun _ => false) [1] (some [1, 2, 3]) none 9 none
        none "T" 5).map Notif.user_id = [2, 3] :=
  ((taskUpdate_notifies_exactly_delta [1] (some [1, 2, 3]) none 9 none
      none "T" 5).1).trans (by decide)

end LB
